import Mathlib

/-!
Verification of the spectrum-fitting pipeline in fit_spectra.py.

The file shallowly embeds the functions of fit_spectra.py into Lean:
floating-point values are modelled as exact rationals (or reals where the
code applies the exponential function), numpy arrays as lists, and the
per-plate loop as structural recursion returning Except (an exception is
an Except.error value).  Definitions keep the names of the source
functions where Lean allows it.
-/

/-- Embedding of a floating-point value as stored in the SKY array:
either a finite value or one of the non-finite IEEE values (nan, inf)
that numpy.isfinite rejects. -/
inductive FVal where
  | fin (x : ℚ)
  | nan
  | inf
deriving DecidableEq, Repr

/-- Embedding of numpy.isfinite on a single value. -/
def FVal.isFinite : FVal → Bool
  | .fin _ => true
  | _ => false

/-- Numeric value of a flux sample; non-finite samples have no numeric
value and are mapped to 0 (they are always filtered out before use). -/
def FVal.toQ : FVal → ℚ
  | .fin x => x
  | _ => 0

/-- One spectrum of a plate: the four aligned arrays WAVE, SKY, SIGMA,
DISP of the structured numpy record (fit_spectra.py lines 108-118). -/
structure Spectrum where
  WAVE : List ℚ
  SKY : List FVal
  SIGMA : List ℚ
  DISP : List ℚ
deriving DecidableEq, Repr

/-- Embedding of numpy boolean-mask indexing xs[mask]: keep the entries
of xs at positions where the mask is true.  (numpy requires the mask
length to equal the array length; the zip truncates at the shorter list,
which agrees with numpy on all well-formed inputs.) -/
def maskSelect {α : Type} (xs : List α) (mask : List Bool) : List α :=
  ((xs.zip mask).filter (fun p => p.2)).map (fun p => p.1)

/-- Embedding of clean_spectra (fit_spectra.py lines 108-118): the mask
ok = isfinite(SKY) is applied to all four arrays; the kept SKY samples
are all finite, so taking their numeric value loses nothing. -/
def clean_spectra (s : Spectrum) : List ℚ × List ℚ × List ℚ × List ℚ :=
  let ok := s.SKY.map FVal.isFinite
  (maskSelect s.WAVE ok, (maskSelect s.SKY ok).map FVal.toQ,
   maskSelect s.SIGMA ok, maskSelect s.DISP ok)

/-- Embedding of air_to_vac (fit_spectra.py lines 120-137).  The input
wavelengths are in nanometers; the code converts to micrometers, forms
the squared inverse wavelength, evaluates the Edlen 1966 refraction
index for each element in a loop, and multiplies the index list with the
original wavelength array (an elementwise numpy product). -/
def air_to_vac (wave : List ℚ) : List ℚ :=
  let wave_um := wave.map (fun w => w * 0.001)
  let ohm2 := wave_um.map (fun w => (1 / w) ^ 2)
  let nn := ohm2.map (fun x =>
    1 + (10 : ℚ) ^ (-8 : ℤ) * (8342.13 + 2406030 / (130 - x) + 15997 / (389 - x)))
  List.zipWith (fun n w => n * w) nn wave

/-- Scalar form of the air-to-vacuum conversion: the value air_to_vac
produces for one wavelength, written as a function of that wavelength
alone. -/
def a2v (w : ℚ) : ℚ :=
  (1 + (10 : ℚ) ^ (-8 : ℤ) * (8342.13 + 2406030 / (130 - (1 / (w * 0.001)) ^ 2)
      + 15997 / (389 - (1 / (w * 0.001)) ^ 2))) * w

/-- One entry of the airglow line catalog: observed wavelength in air
(nanometers) and intensity score, the two fields of the catalog that
fit_spectra.py reads. -/
structure AirglowLine where
  obs_wave : ℚ
  obs_eint : ℚ
deriving DecidableEq, Repr

/-- Embedding of get_vac_lines (fit_spectra.py lines 95-106).  For the
blue list: indices with obs_eint greater than 10 (np.where), the vacuum
conversion of all catalog wavelengths, selection by those indices, then
the cut below 700.  For the red list: the same with threshold 3 and the
cut above 560. -/
def get_vac_lines (catalog : List AirglowLine) : List ℚ × List ℚ :=
  let b_sig := catalog.map (fun l => decide (l.obs_eint > 10))
  let bVL := air_to_vac (catalog.map (fun l => l.obs_wave))
  let bVL2 := maskSelect bVL b_sig
  let blueVacLines := bVL2.filter (fun w => decide (w < 700))
  let r_sig := catalog.map (fun l => decide (l.obs_eint > 3))
  let rVL := air_to_vac (catalog.map (fun l => l.obs_wave))
  let rVL2 := maskSelect rVL r_sig
  let redVacLines := rVL2.filter (fun w => decide (w > 560))
  (blueVacLines, redVacLines)

/-- Gaussian profile value of one airglow line at one wavelength sample:
np.exp(-0.5*((w-line)/sig)**2) (fit_spectra.py line 153). -/
noncomputable def gauss (line sig w : ℝ) : ℝ :=
  Real.exp (-0.5 * ((w - line) / sig) ^ 2)

/-- Embedding of scipy.special.eval_legendre: the Legendre polynomial of
degree n evaluated at x, by the standard three-term recurrence. -/
noncomputable def legendreP : ℕ → ℝ → ℝ
  | 0, _ => 1
  | 1, x => x
  | n + 2, x =>
      ((2 * (n : ℝ) + 3) * x * legendreP (n + 1) x - ((n : ℝ) + 1) * legendreP n x)
        / ((n : ℝ) + 2)

/-- Embedding of airglow_line_components (fit_spectra.py lines 139-155):
one row per airglow line; entry i of the row for a line is the Gaussian
profile of that line at wavelength sample i with width disp_range[i].
The code pairs wave_range[i] with disp_range[i] by index, which the zip
reproduces for the equal-length arrays clean_spectra returns. -/
noncomputable def airglow_line_components
    (airglow_lines : List ℚ) (wave_range disp_range : List ℚ) : List (List ℝ) :=
  airglow_lines.map (fun (line : ℚ) =>
    (wave_range.zip disp_range).map (fun wd => gauss (line : ℝ) (wd.2 : ℝ) (wd.1 : ℝ)))

/-- Embedding of the continuum block AC (fit_spectra.py lines 163-166):
for each i below num_cont, the row eval_legendre(i, wave_range). -/
noncomputable def continuum_components (num_cont : ℕ) (wave_range : List ℚ) : List (List ℝ) :=
  (List.range num_cont).map (fun i => wave_range.map (fun w => legendreP i (w : ℝ)))

/-- Columns of the design matrix A = np.stack(np.vstack((AC,AA)),axis=1)
(fit_spectra.py line 167): the continuum rows of AC followed by the line
rows of AA become the columns of A, continuum first. -/
noncomputable def design_cols (num_cont : ℕ) (airglow_lines wave_range disp_range : List ℚ) :
    List (List ℝ) :=
  continuum_components num_cont wave_range ++
    airglow_line_components airglow_lines wave_range disp_range

/-- Embedding of np.dot(A, params) for a matrix given as its list of
columns: entry i of the product is the sum over the columns of
column[i] times the matching coefficient.  The result has length n, the
number of rows of A. -/
noncomputable def matVecCols (cols : List (List ℝ)) (ps : List ℝ) (n : ℕ) : List ℝ :=
  (List.range n).map (fun i =>
    ((cols.zip ps).map (fun cp => cp.1.getD i 0 * cp.2)).sum)

/-- Modelled from the spec: the ordinary-least-squares solve performed
by the external statsmodels call sm.OLS(sky, A).fit().params
(fit_spectra.py lines 169-170), which is not part of this repository.
It is modelled by the normal-equations solution (transpose(A) * A)^(-1)
* transpose(A) * y, the least-squares coefficient vector whenever the
design matrix has full column rank; the claims below hold for every
coefficient vector, so none depends on this choice.  The result has one
coefficient per design-matrix column. -/
noncomputable def olsParams (cols : List (List ℝ)) (y : List ℝ) : List ℝ :=
  let k := cols.length
  let A : Matrix (Fin y.length) (Fin k) ℝ :=
    Matrix.of fun i j => (cols.getD (j : ℕ) []).getD (i : ℕ) 0
  let M := A.transpose * A
  let b := A.transpose.mulVec (fun i => y.getD (i : ℕ) 0)
  List.ofFn (fun j : Fin k => (M⁻¹).mulVec b j)

/-- Cleaned sky flux of a spectrum as real numbers, the vector
sky_spectra that linear_model regresses against (fit_spectra.py
line 158). -/
noncomputable def lm_sky (s : Spectrum) : List ℝ :=
  (clean_spectra s).2.1.map (Rat.cast : ℚ → ℝ)

/-- Design-matrix columns used by linear_model for a given spectrum:
design_cols applied to the cleaned wavelength and dispersion grids
(fit_spectra.py lines 158-167). -/
noncomputable def lm_cols (s : Spectrum) (num_cont : ℕ) (airglow_lines : List ℚ) :
    List (List ℝ) :=
  design_cols num_cont airglow_lines (clean_spectra s).1 (clean_spectra s).2.2.2

/-- Coefficient vector of the fit, results.params (fit_spectra.py
lines 169-170). -/
noncomputable def lm_params (s : Spectrum) (num_cont : ℕ) (airglow_lines : List ℚ) : List ℝ :=
  olsParams (lm_cols s num_cont airglow_lines) (lm_sky s)

/-- Fitted model vector, model = np.dot(A, params) (fit_spectra.py
line 171). -/
noncomputable def lm_model (s : Spectrum) (num_cont : ℕ) (airglow_lines : List ℚ) : List ℝ :=
  matVecCols (lm_cols s num_cont airglow_lines) (lm_params s num_cont airglow_lines)
    (clean_spectra s).1.length

/-- Residual vector, resids = sky_spectra - model (fit_spectra.py
lines 174 and 182: res and resids are the same expression). -/
noncomputable def lm_resids (s : Spectrum) (num_cont : ℕ) (airglow_lines : List ℚ) : List ℝ :=
  List.zipWith (fun a b => a - b) (lm_sky s) (lm_model s num_cont airglow_lines)

/-- Goodness-of-fit statistic R = 1 - R_1/R_2 (fit_spectra.py
lines 175-177), with R_1 the sum of squared residuals and R_2 the sum
of squared deviations of the cleaned flux from its mean np.mean. -/
noncomputable def lm_R (s : Spectrum) (num_cont : ℕ) (airglow_lines : List ℚ) : ℝ :=
  let sky := lm_sky s
  let R_1 := ((lm_resids s num_cont airglow_lines).map (fun i => i ^ 2)).sum
  let R_2 := (sky.map (fun i => (i - sky.sum / (sky.length : ℝ)) ^ 2)).sum
  1 - R_1 / R_2

/-- Separated continuum signal, cont = np.dot(A[:,0:num_cont],
params[0:num_cont]) (fit_spectra.py line 180). -/
noncomputable def lm_cont (s : Spectrum) (num_cont : ℕ) (airglow_lines : List ℚ) : List ℝ :=
  matVecCols ((lm_cols s num_cont airglow_lines).take num_cont)
    ((lm_params s num_cont airglow_lines).take num_cont) (clean_spectra s).1.length

/-- Separated line signal, lines = np.dot(A[:,num_cont:],
params[num_cont:]) (fit_spectra.py line 181). -/
noncomputable def lm_lines (s : Spectrum) (num_cont : ℕ) (airglow_lines : List ℚ) : List ℝ :=
  matVecCols ((lm_cols s num_cont airglow_lines).drop num_cont)
    ((lm_params s num_cont airglow_lines).drop num_cont) (clean_spectra s).1.length

/-- Return value of linear_model (fit_spectra.py line 184): the list
[wave_range, lines, cont, res, R]. -/
structure FitOutput where
  wave : List ℚ
  lines : List ℝ
  cont : List ℝ
  res : List ℝ
  R : ℝ

/-- Embedding of linear_model (fit_spectra.py lines 157-184). -/
noncomputable def linear_model (s : Spectrum) (num_cont : ℕ) (airglow_lines : List ℚ) :
    FitOutput :=
  ⟨(clean_spectra s).1, lm_lines s num_cont airglow_lines, lm_cont s num_cont airglow_lines,
   lm_resids s num_cont airglow_lines, lm_R s num_cont airglow_lines⟩

/-- Value of the Python variable model in fit_and_separate_spectra
(fit_spectra.py lines 203-209): either the five-element return of
linear_model, or the literal Python list [0,0,0,0,0] whose first element
is the integer 0, set when the camera tag is unrecognized. -/
inductive PyModel where
  | fit (f : FitOutput)
  | zeros

/-- Camera dispatch of fit_and_separate_spectra (fit_spectra.py
lines 203-209): cameras b1 and b2 select the blue vacuum line list with
4 continuum terms, r1 and r2 the red list with 3; any other tag yields
the degenerate [0,0,0,0,0].  The two line lists come from
get_vac_lines on the loaded catalog (line 187). -/
noncomputable def chooseModel (catalog : List AirglowLine) (camera : String) (s : Spectrum) :
    PyModel :=
  if camera = "b1" ∨ camera = "b2" then
    PyModel.fit (linear_model s 4 (get_vac_lines catalog).1)
  else if camera = "r1" ∨ camera = "r2" then
    PyModel.fit (linear_model s 3 (get_vac_lines catalog).2)
  else
    PyModel.zeros

/-- One element of the structured numpy record model_fit built in
fit_spectra.py line 212, with its nine fields. -/
structure SpecRecord where
  TIME : ℝ
  PLATE : ℤ
  COLOR : String
  NUM : ℤ
  WAVE : ℝ
  LINES : ℝ
  CONT : ℝ
  RESIDS : ℝ
  R : ℝ

/-- Default SpecRecord, used only as the default of getD. -/
def defRec : SpecRecord := ⟨0, 0, "", 0, 0, 0, 0, 0, 0⟩

/-- The model_fit record array for a successful fit (fit_spectra.py
lines 212-221): one element per entry of the cleaned wavelength grid
(np.zeros(len(model[0]))), scalar fields broadcast, array fields copied
elementwise. -/
noncomputable def mkRecords (t : ℝ) (plate : ℤ) (camera : String) (specno : ℤ)
    (f : FitOutput) : List SpecRecord :=
  (List.range f.wave.length).map (fun i =>
    { TIME := t, PLATE := plate, COLOR := camera, NUM := specno,
      WAVE := ((f.wave.getD i 0 : ℚ) : ℝ), LINES := f.lines.getD i 0,
      CONT := f.cont.getD i 0, RESIDS := f.res.getD i 0, R := f.R })

/-- Record-building step of fit_and_separate_spectra (fit_spectra.py
lines 212-221).  For a successful fit it returns the record array.  For
the degenerate model [0,0,0,0,0], the very first operation
np.zeros(len(model[0]), ...) computes len(0): model[0] is the Python
integer 0 and len raises TypeError, which this embedding returns as an
Except.error. -/
noncomputable def build_model_fit (t : ℝ) (plate : ℤ) (camera : String) (specno : ℤ)
    (m : PyModel) : Except String (List SpecRecord) :=
  match m with
  | .fit f => Except.ok (mkRecords t plate camera specno f)
  | .zeros => Except.error "TypeError: object of type int has no len()"

/-- Per-plate spectrum loop of fit_and_separate_spectra (fit_spectra.py
lines 195-225): num starts at 0 and increases by one for every
processed identifier; once num reaches max_num the loop breaks.  An
uncaught exception in the body (an Except.error) aborts the whole loop,
losing every record accumulated so far.  The fit wall-clock time,
irrelevant to every claim, is recorded as 0. -/
noncomputable def process_specnos (catalog : List AirglowLine) (cams : ℤ → String)
    (specs : ℤ → Spectrum) (plate : ℤ) (max_num : ℕ) :
    List ℤ → ℕ → Except String (List (List SpecRecord))
  | [], _ => Except.ok []
  | sp :: rest, num =>
    if num < max_num then
      match build_model_fit 0 plate (cams sp) sp (chooseModel catalog (cams sp) (specs sp)) with
      | .error e => Except.error e
      | .ok recs =>
        match process_specnos catalog cams specs plate max_num rest (num + 1) with
        | .error e => Except.error e
        | .ok d => Except.ok (recs :: d)
    else Except.ok []

/-- Embedding of fit_and_separate_spectra (fit_spectra.py lines
186-227) for one plate.  The metadata lookup of the camera tag per
spectrum identifier is the function cams, the spectrum lookup
spectra[specno] is the function specs, and the drawn sample
np.random.choice(this_plate['SPECNO'], size=10) is the argument
specnos: np.random.choice draws with replacement, so any length-10 list
of identifiers of the plate, duplicates included, is a possible draw.
max_num is the literal 10 of line 193.  An ok result models a completed
loop followed by np.save of the accumulated data (line 227); an error
result models an uncaught exception, after which np.save never runs and
no output unit is persisted for the plate. -/
noncomputable def fit_and_separate_spectra (catalog : List AirglowLine) (cams : ℤ → String)
    (specs : ℤ → Spectrum) (plate : ℤ) (specnos : List ℤ) :
    Except String (List (List SpecRecord)) :=
  process_specnos catalog cams specs plate 10 specnos 0

/-- Camera tags that fit_and_separate_spectra recognizes
(fit_spectra.py lines 203-205). -/
def Recognized (camera : String) : Prop :=
  camera = "b1" ∨ camera = "b2" ∨ camera = "r1" ∨ camera = "r2"

/-- Normalized (unit-area) Gaussian density with mean mu and standard
deviation sigma, stated from the words of the spec for comparison with
the profile values the code computes. -/
noncomputable def normalizedGaussian (mu sigma x : ℝ) : ℝ :=
  (sigma * Real.sqrt (2 * Real.pi))⁻¹ * Real.exp (-((x - mu) ^ 2) / (2 * sigma ^ 2))

/-- Concrete well-formed spectrum (no non-finite flux) used by the
witnesses below. -/
def specB : Spectrum := ⟨[500], [FVal.fin 2], [1], [1]⟩

/-- Concrete spectrum with one non-finite flux sample, used by the
witness of the cleaning claim. -/
def specN : Spectrum := ⟨[500, 501], [FVal.fin 2, FVal.nan], [1, 3], [1, 2]⟩

/-- FitOutput produced for a recognized camera tag, used to describe
the records a completed plate loop accumulates: the blue fit for b1 and
b2, the red fit otherwise (only applied to recognized tags). -/
noncomputable def chooseFit (catalog : List AirglowLine) (camera : String) (s : Spectrum) :
    FitOutput :=
  if camera = "b1" ∨ camera = "b2" then linear_model s 4 (get_vac_lines catalog).1
  else linear_model s 3 (get_vac_lines catalog).2

theorem maskSelect_nil_mask {α : Type} (xs : List α) : maskSelect xs [] = [] := by
  cases xs <;> simp [maskSelect]

theorem maskSelect_cons {α : Type} (x : α) (xs : List α) (b : Bool) (m : List Bool) :
    maskSelect (x :: xs) (b :: m) =
      if b then x :: maskSelect xs m else maskSelect xs m := by
  cases b <;> simp [maskSelect]

theorem maskSelect_map {α β : Type} (g : α → β) (xs : List α) (m : List Bool) :
    (maskSelect xs m).map g = maskSelect (xs.map g) m := by
  induction m generalizing xs with
  | nil => simp [maskSelect_nil_mask]
  | cons b m ih =>
    cases xs with
    | nil => simp [maskSelect]
    | cons x xs =>
      rw [maskSelect_cons, List.map_cons, maskSelect_cons]
      cases b <;> simp [ih]

theorem maskSelect_map_pred {α β : Type} (p : β → Bool) (xs : List α) (ys : List β)
    (h : xs.length = ys.length) :
    maskSelect xs (ys.map p) =
      ((xs.zip ys).filter (fun q => p q.2)).map (fun q => q.1) := by
  induction xs generalizing ys with
  | nil => simp [maskSelect]
  | cons x xs ih =>
    cases ys with
    | nil => simp at h
    | cons y ys =>
      rw [List.map_cons, maskSelect_cons, List.zip_cons_cons, List.filter_cons]
      simp only [List.length_cons, Nat.succ.injEq] at h
      cases hp : p y <;> simp [ih ys h, hp]

theorem maskSelect_zip {α β : Type} (xs : List α) (ys : List β) (m : List Bool) :
    (maskSelect xs m).zip (maskSelect ys m) = maskSelect (xs.zip ys) m := by
  induction m generalizing xs ys with
  | nil => simp [maskSelect_nil_mask]
  | cons b m ih =>
    cases xs with
    | nil => simp [maskSelect]
    | cons x xs =>
      cases ys with
      | nil => simp [maskSelect]
      | cons y ys =>
        rw [maskSelect_cons, maskSelect_cons, List.zip_cons_cons, maskSelect_cons]
        cases b <;> simp [ih]

theorem length_maskSelect_map_pred {α β : Type} (p : β → Bool) (xs : List α) (ys : List β)
    (h : xs.length = ys.length) :
    (maskSelect xs (ys.map p)).length = ys.countP p := by
  induction xs generalizing ys with
  | nil =>
    cases ys with
    | nil => simp [maskSelect]
    | cons y ys => simp at h
  | cons x xs ih =>
    cases ys with
    | nil => simp at h
    | cons y ys =>
      rw [List.map_cons, maskSelect_cons, List.countP_cons]
      simp only [List.length_cons, Nat.succ.injEq] at h
      cases hp : p y <;> simp [ih ys h, hp]

theorem maskSelect_map_map {α β : Type} (f : α → β) (p : α → Bool) (l : List α) :
    maskSelect (l.map f) (l.map p) = (l.filter p).map f := by
  induction l with
  | nil => simp [maskSelect]
  | cons a l ih =>
    rw [List.map_cons, List.map_cons, maskSelect_cons, List.filter_cons]
    cases hp : p a <;> simp [ih, hp]

theorem air_to_vac_eq_map (ws : List ℚ) : air_to_vac ws = ws.map a2v := by
  induction ws with
  | nil => simp [air_to_vac]
  | cons w ws ih =>
    simp only [air_to_vac, List.map_cons, List.zipWith_cons_cons] at ih ⊢
    rw [ih]
    simp [a2v, mul_comm]

/-- C9: the air-to-vacuum wavelength conversion is elementwise: for
every sequence of positive wavelengths, converting the whole sequence
equals mapping the scalar conversion over it (each output depends only
on the corresponding input), and consequently the conversion commutes
with taking subsequences. -/
theorem air_to_vac_elementwise :
    (∀ ws : List ℚ, (∀ w ∈ ws, 0 < w) → air_to_vac ws = ws.map a2v) ∧
    (∀ l s : List ℚ, (∀ w ∈ l, 0 < w) → s.Sublist l →
      (air_to_vac s).Sublist (air_to_vac l)) := by
  constructor
  · intro ws _
    exact air_to_vac_eq_map ws
  · intro l s _ hsub
    rw [air_to_vac_eq_map, air_to_vac_eq_map]
    exact hsub.map a2v

/-- Witness for C9 at the concrete positive input [400, 600] with
subsequence [400]. -/
theorem air_to_vac_elementwise_witness :
    air_to_vac [400, 600] = [a2v 400, a2v 600] ∧
      (air_to_vac [400]).Sublist (air_to_vac [400, 600]) :=
  ⟨air_to_vac_elementwise.1 [400, 600] (by decide),
   air_to_vac_elementwise.2 [400, 600] [400] (by decide) (by decide)⟩

/-- C5: for any catalog, the blue vacuum line list is exactly the
vacuum-converted wavelengths of the entries with intensity above 10
whose converted wavelength is below 700, and the red list exactly those
with intensity above 3 whose converted wavelength is above 560, the two
thresholds being independent. -/
theorem vac_line_selection_exact (catalog : List AirglowLine) :
    get_vac_lines catalog =
      ((catalog.filter (fun l => decide (10 < l.obs_eint) &&
          decide (a2v l.obs_wave < 700))).map (fun l => a2v l.obs_wave),
       (catalog.filter (fun l => decide (3 < l.obs_eint) &&
          decide (560 < a2v l.obs_wave))).map (fun l => a2v l.obs_wave)) := by
  simp only [get_vac_lines, air_to_vac_eq_map, List.map_map, maskSelect_map_map,
    List.filter_map, List.filter_filter]
  rw [Prod.mk.injEq]
  constructor <;>
    exact congrArg _ (List.filter_congr (fun a _ => Bool.and_comm _ _))

/-- C3: cleaning a spectrum whose four arrays share length n and whose
flux has k non-finite entries yields four sequences of length n - k,
and the sequence of cleaned quadruples is exactly the sequence of
original quadruples at the positions with finite flux, in order: every
cleaned index draws its wavelength, flux, sigma and dispersion from one
and the same original sample. -/
theorem cleaning_preserves_alignment (s : Spectrum) (n k : ℕ)
    (hw : s.WAVE.length = n) (hs : s.SKY.length = n)
    (hsg : s.SIGMA.length = n) (hd : s.DISP.length = n)
    (hk : (s.SKY.filter (fun v => !v.isFinite)).length = k) :
    (clean_spectra s).1.length = n - k ∧
    (clean_spectra s).2.1.length = n - k ∧
    (clean_spectra s).2.2.1.length = n - k ∧
    (clean_spectra s).2.2.2.length = n - k ∧
    (clean_spectra s).1.zip ((clean_spectra s).2.1.zip
        ((clean_spectra s).2.2.1.zip (clean_spectra s).2.2.2)) =
      (((s.WAVE.zip ((s.SKY.map FVal.toQ).zip (s.SIGMA.zip s.DISP))).zip s.SKY).filter
        (fun q => q.2.isFinite)).map (fun q => q.1) := by
  have hcount : s.SKY.countP FVal.isFinite = n - k := by
    have h1 := List.length_eq_countP_add_countP FVal.isFinite s.SKY
    have h2 : s.SKY.countP (fun v => !v.isFinite) = k := by
      rw [List.countP_eq_length_filter]
      exact hk
    have h3 : s.SKY.countP (fun a => decide (¬FVal.isFinite a = true)) =
        s.SKY.countP (fun v => !v.isFinite) := by
      apply List.countP_congr
      intro a _
      cases a <;> simp [FVal.isFinite]
    omega
  have hc : clean_spectra s = (maskSelect s.WAVE (s.SKY.map FVal.isFinite),
      (maskSelect s.SKY (s.SKY.map FVal.isFinite)).map FVal.toQ,
      maskSelect s.SIGMA (s.SKY.map FVal.isFinite),
      maskSelect s.DISP (s.SKY.map FVal.isFinite)) := rfl
  refine ⟨?_, ?_, ?_, ?_, ?_⟩
  · simp only [hc]
    rw [length_maskSelect_map_pred _ _ _ (hw.trans hs.symm)]
    exact hcount
  · simp only [hc, List.length_map]
    rw [length_maskSelect_map_pred _ _ _ rfl]
    exact hcount
  · simp only [hc]
    rw [length_maskSelect_map_pred _ _ _ (hsg.trans hs.symm)]
    exact hcount
  · simp only [hc]
    rw [length_maskSelect_map_pred _ _ _ (hd.trans hs.symm)]
    exact hcount
  · simp only [hc]
    rw [maskSelect_map, maskSelect_zip, maskSelect_zip, maskSelect_zip]
    exact maskSelect_map_pred FVal.isFinite _ s.SKY
      (by simp [List.length_zip, hw, hs, hsg, hd])

/-- Witness for C3 on a concrete two-sample spectrum whose second flux
value is nan. -/
theorem cleaning_preserves_alignment_witness :
    (clean_spectra specN).1.length = 2 - 1 ∧
    (clean_spectra specN).2.1.length = 2 - 1 ∧
    (clean_spectra specN).2.2.1.length = 2 - 1 ∧
    (clean_spectra specN).2.2.2.length = 2 - 1 ∧
    (clean_spectra specN).1.zip ((clean_spectra specN).2.1.zip
        ((clean_spectra specN).2.2.1.zip (clean_spectra specN).2.2.2)) =
      (((specN.WAVE.zip ((specN.SKY.map FVal.toQ).zip
          (specN.SIGMA.zip specN.DISP))).zip specN.SKY).filter
        (fun q => q.2.isFinite)).map (fun q => q.1) :=
  cleaning_preserves_alignment specN 2 1 (by decide) (by decide) (by decide) (by decide)
    (by decide)

theorem length_olsParams (cols : List (List ℝ)) (y : List ℝ) :
    (olsParams cols y).length = cols.length := by
  simp [olsParams]

theorem length_matVecCols (cols : List (List ℝ)) (ps : List ℝ) (n : ℕ) :
    (matVecCols cols ps n).length = n := by
  simp [matVecCols]

theorem matVecCols_getD (cols : List (List ℝ)) (ps : List ℝ) (n i : ℕ) (hi : i < n) :
    (matVecCols cols ps n).getD i 0 =
      ((cols.zip ps).map (fun cp => cp.1.getD i 0 * cp.2)).sum := by
  unfold matVecCols
  rw [List.getD_eq_getElem _ _ (by simpa using hi), List.getElem_map, List.getElem_range]

theorem matVecCols_split (cols : List (List ℝ)) (ps : List ℝ) (n i j : ℕ)
    (hp : ps.length = cols.length) (hi : i < n) :
    (matVecCols (cols.take j) (ps.take j) n).getD i 0 +
      (matVecCols (cols.drop j) (ps.drop j) n).getD i 0 =
      (matVecCols cols ps n).getD i 0 := by
  rw [matVecCols_getD _ _ _ _ hi, matVecCols_getD _ _ _ _ hi, matVecCols_getD _ _ _ _ hi]
  conv_rhs => rw [← List.take_append_drop j cols, ← List.take_append_drop j ps]
  rw [List.zip_append (by simp [hp]), List.map_append, List.sum_append]

theorem getD_zipWith {α β γ : Type} (f : α → β → γ) (a : List α) (b : List β)
    (da : α) (db : β) (dc : γ) (i : ℕ) (ha : i < a.length) (hb : i < b.length) :
    (List.zipWith f a b).getD i dc = f (a.getD i da) (b.getD i db) := by
  rw [List.getD_eq_getElem _ _ (by simp; omega), List.getElem_zipWith,
    List.getD_eq_getElem _ _ ha, List.getD_eq_getElem _ _ hb]

theorem getD_zip {α β : Type} (a : List α) (b : List β) (da : α) (db : β) (i : ℕ)
    (ha : i < a.length) (hb : i < b.length) :
    (a.zip b).getD i (da, db) = (a.getD i da, b.getD i db) :=
  getD_zipWith Prod.mk a b da db (da, db) i ha hb

theorem getD_map_coe (l : List ℚ) (i : ℕ) (hi : i < l.length) :
    (l.map (Rat.cast : ℚ → ℝ)).getD i 0 = ((l.getD i 0 : ℚ) : ℝ) := by
  rw [List.getD_eq_getElem _ _ (by rw [List.length_map]; exact hi), List.getElem_map,
    List.getD_eq_getElem _ _ hi]

theorem getD_map {α β : Type} (f : α → β) (l : List α) (d : β) (dd : α) (i : ℕ)
    (hi : i < l.length) : (l.map f).getD i d = f (l.getD i dd) := by
  rw [List.getD_eq_getElem _ _ (by rw [List.length_map]; exact hi), List.getElem_map,
    List.getD_eq_getElem _ _ hi]

theorem list_map_sum_range {α : Type} (l : List α) (f : α → ℝ) (d : α) :
    (l.map f).sum = ∑ i ∈ Finset.range l.length, f (l.getD i d) := by
  induction l with
  | nil => simp
  | cons a l ih =>
    rw [List.map_cons, List.sum_cons, List.length_cons, Finset.sum_range_succ', ih]
    simp [add_comm]

theorem list_sum_range (l : List ℝ) : l.sum = ∑ i ∈ Finset.range l.length, l.getD i 0 := by
  have h := list_map_sum_range l id 0
  simpa using h

theorem length_design_cols (nc : ℕ) (gl wave disp : List ℚ) :
    (design_cols nc gl wave disp).length = nc + gl.length := by
  unfold design_cols continuum_components airglow_line_components
  rw [List.length_append, List.length_map, List.length_map, List.length_range]

theorem length_lm_cols (s : Spectrum) (nc : ℕ) (gl : List ℚ) :
    (lm_cols s nc gl).length = nc + gl.length :=
  length_design_cols nc gl _ _

theorem length_lm_params (s : Spectrum) (nc : ℕ) (gl : List ℚ) :
    (lm_params s nc gl).length = (lm_cols s nc gl).length :=
  length_olsParams _ _

theorem clean_sky_length (s : Spectrum) (hl : s.WAVE.length = s.SKY.length) :
    (clean_spectra s).2.1.length = (clean_spectra s).1.length := by
  have hc : clean_spectra s = (maskSelect s.WAVE (s.SKY.map FVal.isFinite),
      (maskSelect s.SKY (s.SKY.map FVal.isFinite)).map FVal.toQ,
      maskSelect s.SIGMA (s.SKY.map FVal.isFinite),
      maskSelect s.DISP (s.SKY.map FVal.isFinite)) := rfl
  simp only [hc, List.length_map]
  rw [length_maskSelect_map_pred _ _ _ rfl, length_maskSelect_map_pred _ _ _ hl]

theorem length_lm_sky (s : Spectrum) : (lm_sky s).length = (clean_spectra s).2.1.length := by
  unfold lm_sky
  rw [List.length_map]

theorem length_lm_model (s : Spectrum) (nc : ℕ) (gl : List ℚ) :
    (lm_model s nc gl).length = (clean_spectra s).1.length :=
  length_matVecCols _ _ _

/-- C1: for every fitted spectrum (well-formed: flux array as long as
the wavelength array) and every cleaned sample, the separated continuum
plus the separated line signal plus the residual equals the cleaned
observed flux; the continuum is the product of the first num_cont
design-matrix columns with the first num_cont coefficients, the lines
the product of the remaining columns with the remaining coefficients,
and the residual the observed flux minus the full model. -/
theorem reconstruction_identity (s : Spectrum) (nc : ℕ) (gl : List ℚ)
    (hl : s.WAVE.length = s.SKY.length) (i : ℕ)
    (hi : i < (clean_spectra s).1.length) :
    (linear_model s nc gl).cont.getD i 0 + (linear_model s nc gl).lines.getD i 0 +
      (linear_model s nc gl).res.getD i 0 = (((clean_spectra s).2.1.getD i 0 : ℚ) : ℝ) := by
  have hsky : (clean_spectra s).2.1.length = (clean_spectra s).1.length :=
    clean_sky_length s hl
  have hcl : (lm_cont s nc gl).getD i 0 + (lm_lines s nc gl).getD i 0 =
      (lm_model s nc gl).getD i 0 := by
    unfold lm_cont lm_lines lm_model
    exact matVecCols_split _ _ _ i nc (length_lm_params s nc gl) hi
  have hres : (lm_resids s nc gl).getD i 0 =
      (lm_sky s).getD i 0 - (lm_model s nc gl).getD i 0 := by
    unfold lm_resids
    exact getD_zipWith _ _ _ 0 0 0 i
      (by rw [length_lm_sky, hsky]; exact hi)
      (by rw [length_lm_model]; exact hi)
  have hskyv : (lm_sky s).getD i 0 = (((clean_spectra s).2.1.getD i 0 : ℚ) : ℝ) := by
    unfold lm_sky
    exact getD_map_coe _ i (by rw [hsky]; exact hi)
  show (lm_cont s nc gl).getD i 0 + (lm_lines s nc gl).getD i 0 +
      (lm_resids s nc gl).getD i 0 = (((clean_spectra s).2.1.getD i 0 : ℚ) : ℝ)
  rw [hres, ← hskyv, ← hcl]
  ring

/-- Witness for C1 on a concrete one-sample spectrum fitted with 4
continuum terms and an empty line list. -/
theorem reconstruction_identity_witness :
    (linear_model specB 4 []).cont.getD 0 0 + (linear_model specB 4 []).lines.getD 0 0 +
      (linear_model specB 4 []).res.getD 0 0 =
      (((clean_spectra specB).2.1.getD 0 0 : ℚ) : ℝ) :=
  reconstruction_identity specB 4 [] (by decide) 0 (by decide)

theorem length_continuum_components (nc : ℕ) (wave : List ℚ) :
    (continuum_components nc wave).length = nc := by
  unfold continuum_components
  rw [List.length_map, List.length_range]

theorem length_airglow_line_components (gl wave disp : List ℚ) :
    (airglow_line_components gl wave disp).length = gl.length := by
  unfold airglow_line_components
  rw [List.length_map]

/-- C8: for every spectrum fit the design matrix has exactly num_cont
plus the number of selected lines many columns, the num_cont continuum
columns precede the line columns, every selected line contributes its
Gaussian column whatever its values (no dynamic pruning), and the
separation recovers the full model by partitioning the columns at
exactly the continuum count. -/
theorem design_matrix_partition (s : Spectrum) (nc : ℕ) (gl : List ℚ) :
    (lm_cols s nc gl).length = nc + gl.length ∧
    (lm_cols s nc gl).take nc = continuum_components nc (clean_spectra s).1 ∧
    (lm_cols s nc gl).drop nc =
      airglow_line_components gl (clean_spectra s).1 (clean_spectra s).2.2.2 ∧
    (∀ j, j < gl.length →
      (lm_cols s nc gl).getD (nc + j) [] =
        ((clean_spectra s).1.zip (clean_spectra s).2.2.2).map
          (fun wd => gauss ((gl.getD j 0 : ℚ) : ℝ) (wd.2 : ℝ) (wd.1 : ℝ))) ∧
    (∀ i, i < (clean_spectra s).1.length →
      (lm_cont s nc gl).getD i 0 + (lm_lines s nc gl).getD i 0 =
        (lm_model s nc gl).getD i 0) := by
  refine ⟨length_lm_cols s nc gl, ?_, ?_, ?_, ?_⟩
  · show (design_cols nc gl _ _).take nc = _
    unfold design_cols
    exact List.take_left' (length_continuum_components nc _)
  · show (design_cols nc gl _ _).drop nc = _
    unfold design_cols
    exact List.drop_left' (length_continuum_components nc _)
  · intro j hj
    show (design_cols nc gl _ _).getD (nc + j) [] = _
    unfold design_cols
    rw [List.getD_append_right _ _ [] (nc + j)
        (by rw [length_continuum_components]; omega),
      length_continuum_components, show nc + j - nc = j from by omega,
      List.getD_eq_getElem _ _ (by rw [length_airglow_line_components]; exact hj)]
    unfold airglow_line_components
    rw [List.getElem_map, List.getD_eq_getElem _ _ hj]
  · intro i hi
    unfold lm_cont lm_lines lm_model
    exact matVecCols_split _ _ _ i nc (length_lm_params s nc gl) hi

/-- Witness for C8 at a one-sample spectrum, one continuum term and one
catalog line. -/
theorem design_matrix_partition_witness :
    (lm_cols specB 1 [600]).length = 1 + 1 ∧
    (lm_cols specB 1 [600]).take 1 = continuum_components 1 (clean_spectra specB).1 ∧
    (lm_cols specB 1 [600]).drop 1 =
      airglow_line_components [600] (clean_spectra specB).1 (clean_spectra specB).2.2.2 ∧
    (lm_cols specB 1 [600]).getD (1 + 0) [] =
      ((clean_spectra specB).1.zip (clean_spectra specB).2.2.2).map
        (fun wd => gauss ((([600].getD 0 0 : ℚ) : ℚ) : ℝ) (wd.2 : ℝ) (wd.1 : ℝ)) ∧
    (lm_cont specB 1 [600]).getD 0 0 + (lm_lines specB 1 [600]).getD 0 0 =
      (lm_model specB 1 [600]).getD 0 0 :=
  ⟨(design_matrix_partition specB 1 [600]).1,
   (design_matrix_partition specB 1 [600]).2.1,
   (design_matrix_partition specB 1 [600]).2.2.1,
   (design_matrix_partition specB 1 [600]).2.2.2.1 0 (by decide),
   (design_matrix_partition specB 1 [600]).2.2.2.2 0 (by decide)⟩

theorem matVecCols_getD_sum (cols : List (List ℝ)) (ps : List ℝ) (n i : ℕ)
    (hp : ps.length = cols.length) (hi : i < n) :
    (matVecCols cols ps n).getD i 0 =
      ∑ j ∈ Finset.range cols.length, (cols.getD j []).getD i 0 * ps.getD j 0 := by
  rw [matVecCols_getD _ _ _ _ hi, list_map_sum_range _ _ (([], (0 : ℝ)))]
  have hlen : (cols.zip ps).length = cols.length := by
    rw [List.length_zip, hp, min_self]
  rw [hlen]
  apply Finset.sum_congr rfl
  intro j hj
  rw [Finset.mem_range] at hj
  rw [getD_zip _ _ [] 0 j hj (by rw [hp]; exact hj)]

theorem length_lm_resids (s : Spectrum) (nc : ℕ) (gl : List ℚ)
    (hl : s.WAVE.length = s.SKY.length) :
    (lm_resids s nc gl).length = (clean_spectra s).1.length := by
  unfold lm_resids
  rw [List.length_zipWith, length_lm_sky, clean_sky_length s hl, length_lm_model, min_self]

/-- C7: the goodness-of-fit statistic returned for every fitted
spectrum equals 1 minus the ratio of the sum of squared residuals of
the fitted model to the sum of squared deviations of the cleaned
observed flux from its mean, and the residual vector is the cleaned
flux minus the fitted model vector, the design matrix times the
coefficient vector. -/
theorem rsquared_and_model_formula (s : Spectrum) (nc : ℕ) (gl : List ℚ)
    (hl : s.WAVE.length = s.SKY.length) :
    ((linear_model s nc gl).R =
      1 - (∑ i ∈ Finset.range (clean_spectra s).1.length,
            ((((clean_spectra s).2.1.getD i 0 : ℚ) : ℝ) -
              ∑ j ∈ Finset.range (nc + gl.length),
                ((lm_cols s nc gl).getD j []).getD i 0 *
                  (lm_params s nc gl).getD j 0) ^ 2) /
          (∑ i ∈ Finset.range (clean_spectra s).1.length,
            ((((clean_spectra s).2.1.getD i 0 : ℚ) : ℝ) -
              (∑ j ∈ Finset.range (clean_spectra s).1.length,
                (((clean_spectra s).2.1.getD j 0 : ℚ) : ℝ)) /
                ((clean_spectra s).1.length : ℝ)) ^ 2)) ∧
    ∀ i, i < (clean_spectra s).1.length →
      (linear_model s nc gl).res.getD i 0 =
        (((clean_spectra s).2.1.getD i 0 : ℚ) : ℝ) -
          ∑ j ∈ Finset.range (nc + gl.length),
            ((lm_cols s nc gl).getD j []).getD i 0 * (lm_params s nc gl).getD j 0 := by
  have hsky : (clean_spectra s).2.1.length = (clean_spectra s).1.length :=
    clean_sky_length s hl
  have hm : ∀ i, i < (clean_spectra s).1.length →
      (lm_model s nc gl).getD i 0 =
        ∑ j ∈ Finset.range (nc + gl.length),
          ((lm_cols s nc gl).getD j []).getD i 0 * (lm_params s nc gl).getD j 0 := by
    intro i hi
    unfold lm_model
    rw [matVecCols_getD_sum _ _ _ i (length_lm_params s nc gl) hi, length_lm_cols]
  have hskyv : ∀ i, i < (clean_spectra s).1.length →
      (lm_sky s).getD i 0 = (((clean_spectra s).2.1.getD i 0 : ℚ) : ℝ) := by
    intro i hi
    unfold lm_sky
    exact getD_map_coe _ i (by rw [hsky]; exact hi)
  have hres : ∀ i, i < (clean_spectra s).1.length →
      (lm_resids s nc gl).getD i 0 =
        (((clean_spectra s).2.1.getD i 0 : ℚ) : ℝ) -
          ∑ j ∈ Finset.range (nc + gl.length),
            ((lm_cols s nc gl).getD j []).getD i 0 * (lm_params s nc gl).getD j 0 := by
    intro i hi
    unfold lm_resids
    rw [getD_zipWith _ _ _ 0 0 0 i (by rw [length_lm_sky, hsky]; exact hi)
        (by rw [length_lm_model]; exact hi),
      hskyv i hi, hm i hi]
  constructor
  · show 1 - (((lm_resids s nc gl).map (fun v => v ^ 2)).sum) /
        (((lm_sky s).map
          (fun v => (v - (lm_sky s).sum / ((lm_sky s).length : ℝ)) ^ 2)).sum) = _
    have hlsky : (lm_sky s).length = (clean_spectra s).1.length := by
      rw [length_lm_sky, hsky]
    have h1 : ((lm_resids s nc gl).map (fun v => v ^ 2)).sum =
        ∑ i ∈ Finset.range (clean_spectra s).1.length,
          ((((clean_spectra s).2.1.getD i 0 : ℚ) : ℝ) -
            ∑ j ∈ Finset.range (nc + gl.length),
              ((lm_cols s nc gl).getD j []).getD i 0 *
                (lm_params s nc gl).getD j 0) ^ 2 := by
      rw [list_map_sum_range _ _ (0 : ℝ), length_lm_resids s nc gl hl]
      apply Finset.sum_congr rfl
      intro i hi
      rw [Finset.mem_range] at hi
      rw [hres i hi]
    have hmean : (lm_sky s).sum =
        ∑ j ∈ Finset.range (clean_spectra s).1.length,
          (((clean_spectra s).2.1.getD j 0 : ℚ) : ℝ) := by
      rw [list_sum_range, hlsky]
      apply Finset.sum_congr rfl
      intro j hj
      rw [Finset.mem_range] at hj
      exact hskyv j hj
    have h2 : ((lm_sky s).map
        (fun v => (v - (lm_sky s).sum / ((lm_sky s).length : ℝ)) ^ 2)).sum =
        ∑ i ∈ Finset.range (clean_spectra s).1.length,
          ((((clean_spectra s).2.1.getD i 0 : ℚ) : ℝ) -
            (∑ j ∈ Finset.range (clean_spectra s).1.length,
              (((clean_spectra s).2.1.getD j 0 : ℚ) : ℝ)) /
              ((clean_spectra s).1.length : ℝ)) ^ 2 := by
      rw [list_map_sum_range _ _ (0 : ℝ), hlsky]
      apply Finset.sum_congr rfl
      intro i hi
      rw [Finset.mem_range] at hi
      rw [hskyv i hi, hmean]
    rw [h1, h2]
  · intro i hi
    exact hres i hi

/-- Witness for C7 at a concrete one-sample spectrum. -/
theorem rsquared_and_model_formula_witness :
    ((linear_model specB 4 []).R =
      1 - (∑ i ∈ Finset.range (clean_spectra specB).1.length,
            ((((clean_spectra specB).2.1.getD i 0 : ℚ) : ℝ) -
              ∑ j ∈ Finset.range (4 + ([] : List ℚ).length),
                ((lm_cols specB 4 []).getD j []).getD i 0 *
                  (lm_params specB 4 []).getD j 0) ^ 2) /
          (∑ i ∈ Finset.range (clean_spectra specB).1.length,
            ((((clean_spectra specB).2.1.getD i 0 : ℚ) : ℝ) -
              (∑ j ∈ Finset.range (clean_spectra specB).1.length,
                (((clean_spectra specB).2.1.getD j 0 : ℚ) : ℝ)) /
                ((clean_spectra specB).1.length : ℝ)) ^ 2)) ∧
    ∀ i, i < (clean_spectra specB).1.length →
      (linear_model specB 4 []).res.getD i 0 =
        (((clean_spectra specB).2.1.getD i 0 : ℚ) : ℝ) -
          ∑ j ∈ Finset.range (4 + ([] : List ℚ).length),
            ((lm_cols specB 4 []).getD j []).getD i 0 *
              (lm_params specB 4 []).getD j 0 :=
  rsquared_and_model_formula specB 4 [] (by decide)

/-- C4 counterexample: the line-profile matrix entry is not the
normalized Gaussian value.  For a single catalog line at wavelength 0,
one sample at wavelength 0 and dispersion 1, the code computes
exp(0) = 1 while the normalized Gaussian density at the same center,
width and point is 1/sqrt(2*pi), which is less than 1. -/
theorem line_profile_not_normalized :
    ((airglow_line_components [0] [0] [1]).getD 0 []).getD 0 0 ≠
      normalizedGaussian 0 1 0 := by
  have hentry : ((airglow_line_components [0] [0] [1]).getD 0 []).getD 0 0 = 1 := by
    unfold airglow_line_components gauss
    norm_num
  have hnorm : normalizedGaussian 0 1 0 = (Real.sqrt (2 * Real.pi))⁻¹ := by
    unfold normalizedGaussian
    norm_num
  rw [hentry, hnorm]
  have hsqrt : 1 < Real.sqrt (2 * Real.pi) := by
    rw [show (1 : ℝ) = Real.sqrt 1 from (Real.sqrt_one).symm]
    exact Real.sqrt_lt_sqrt (by norm_num) (by nlinarith [Real.pi_gt_three])
  exact ne_of_gt (inv_lt_one_of_one_lt₀ hsqrt)

/-- C4 as amended: the entry of the line-profile matrix for catalog
line j at cleaned sample i is the unnormalized unit-amplitude Gaussian
value exp(-(w_i - line_j)^2 / (2 sigma_i^2)), centered at line j's
wavelength with standard deviation equal to sample i's local dispersion
value, so within one line's column the width varies per row (per
sample), not per line. -/
theorem line_profile_gaussian_per_sample_width (gl wave disp : List ℚ) (j i : ℕ)
    (hj : j < gl.length) (hi : i < wave.length) (hd : i < disp.length) :
    ((airglow_line_components gl wave disp).getD j []).getD i 0 =
      Real.exp (-0.5 * ((((wave.getD i 0 : ℚ) : ℝ) - ((gl.getD j 0 : ℚ) : ℝ)) /
        ((disp.getD i 0 : ℚ) : ℝ)) ^ 2) := by
  unfold airglow_line_components
  rw [getD_map _ _ _ (0 : ℚ) j hj,
    getD_map _ _ _ ((0 : ℚ), (0 : ℚ)) i (by rw [List.length_zip]; exact lt_min hi hd),
    getD_zip _ _ 0 0 i hi hd]
  rfl

/-- Witness for the amended C4 at one line, one sample. -/
theorem line_profile_gaussian_per_sample_width_witness :
    ((airglow_line_components [600] [500] [2]).getD 0 []).getD 0 0 =
      Real.exp (-0.5 * (((([500].getD 0 0 : ℚ) : ℝ) - (([600].getD 0 0 : ℚ) : ℝ)) /
        (([2].getD 0 0 : ℚ) : ℝ)) ^ 2) :=
  line_profile_gaussian_per_sample_width [600] [500] [2] 0 0 (by decide) (by decide)
    (by decide)

/-- C6: a spectrum whose camera tag is b1 or b2 is fitted with the blue
vacuum line list and 4 continuum terms, and one whose tag is r1 or r2
with the red vacuum line list and 3 continuum terms. -/
theorem camera_band_dispatch (catalog : List AirglowLine) (cam : String) (s : Spectrum) :
    (cam = "b1" ∨ cam = "b2" →
      chooseModel catalog cam s = PyModel.fit (linear_model s 4 (get_vac_lines catalog).1)) ∧
    (cam = "r1" ∨ cam = "r2" →
      chooseModel catalog cam s = PyModel.fit (linear_model s 3 (get_vac_lines catalog).2)) := by
  constructor
  · intro h
    unfold chooseModel
    rw [if_pos h]
  · intro h
    unfold chooseModel
    rw [if_neg, if_pos h]
    rcases h with h | h <;> subst h <;> simp

/-- Witness for C6: blue and red dispatch at concrete tags. -/
theorem camera_band_dispatch_witness :
    chooseModel [] "b1" specB = PyModel.fit (linear_model specB 4 (get_vac_lines []).1) ∧
    chooseModel [] "r1" specB = PyModel.fit (linear_model specB 3 (get_vac_lines []).2) :=
  ⟨(camera_band_dispatch [] "b1" specB).1 (Or.inl rfl),
   (camera_band_dispatch [] "r1" specB).2 (Or.inl rfl)⟩

/-- C2 behaviour of the code at a plate with one spectrum whose camera
tag is unrecognized: the record-building step evaluates len(model[0])
on the Python integer 0, raising TypeError; the loop aborts and the
plate's output is never persisted, contradicting the claim that the
degenerate record is emitted without raising. -/
theorem unrecognized_camera_aborts_plate :
    fit_and_separate_spectra [] (fun _ => "x1") (fun _ => specB) 1234 [0] =
      Except.error "TypeError: object of type int has no len()" := by
  unfold fit_and_separate_spectra process_specnos chooseModel build_model_fit
  rw [if_pos (show (0 : ℕ) < 10 by decide),
    if_neg (show ¬("x1" = "b1" ∨ "x1" = "b2") by decide),
    if_neg (show ¬("x1" = "r1" ∨ "x1" = "r2") by decide)]

theorem choose_recognized (catalog : List AirglowLine) (cam : String) (s : Spectrum)
    (h : Recognized cam) :
    chooseModel catalog cam s = PyModel.fit (chooseFit catalog cam s) := by
  unfold chooseModel chooseFit
  rcases h with h | h | h | h <;> subst h <;> simp

theorem process_ok (catalog : List AirglowLine) (cams : ℤ → String) (specs : ℤ → Spectrum)
    (plate : ℤ) (max_num : ℕ) (l : List ℤ) (h : ∀ sp ∈ l, Recognized (cams sp)) :
    ∀ num, process_specnos catalog cams specs plate max_num l num =
      Except.ok ((l.take (max_num - num)).map
        (fun sp => mkRecords 0 plate (cams sp) sp (chooseFit catalog (cams sp) (specs sp)))) := by
  induction l with
  | nil =>
    intro num
    rw [List.take_nil, List.map_nil]
    rfl
  | cons sp rest ih =>
    intro num
    by_cases hnum : num < max_num
    · have h1 : max_num - num = (max_num - (num + 1)) + 1 := by omega
      unfold process_specnos
      rw [if_pos hnum, choose_recognized _ _ _ (h sp (List.mem_cons_self sp rest))]
      simp only [build_model_fit]
      rw [ih (fun x hx => h x (List.mem_cons_of_mem _ hx)) (num + 1), h1,
        List.take_succ_cons, List.map_cons]
    · unfold process_specnos
      rw [if_neg hnum, show max_num - num = 0 from by omega, List.take_zero, List.map_nil]

theorem mkRecords_NUM (t : ℝ) (plate : ℤ) (cam : String) (specno : ℤ) (f : FitOutput)
    (i : ℕ) (hi : i < f.wave.length) :
    ((mkRecords t plate cam specno f).getD i defRec).NUM = specno := by
  unfold mkRecords
  rw [getD_map _ _ _ 0 i (by rw [List.length_range]; exact hi)]

/-- C10: the plate loop fits and records every drawn spectrum
identifier without deduplication.  For every recognized draw of the
fixed sample size 10 the persisted collection holds exactly 10 records,
and a draw that repeats one identifier (possible because
np.random.choice samples with replacement) yields several records
carrying the same identifier, with the record count still 10 rather
than the number of distinct spectra. -/
theorem sampling_with_replacement_records :
    (∀ (catalog : List AirglowLine) (cams : ℤ → String) (specs : ℤ → Spectrum)
        (plate : ℤ) (specnos : List ℤ),
      (∀ sp ∈ specnos, Recognized (cams sp)) → specnos.length = 10 →
      ∃ data, fit_and_separate_spectra catalog cams specs plate specnos = Except.ok data ∧
        data.length = 10) ∧
    (∃ data, fit_and_separate_spectra [] (fun _ => "b1") (fun _ => specB) 42
        (List.replicate 10 7) = Except.ok data ∧ data.length = 10 ∧
      (List.replicate 10 (7 : ℤ)).dedup.length = 1 ∧
      ((data.getD 0 []).getD 0 defRec).NUM = 7 ∧
      ((data.getD 1 []).getD 0 defRec).NUM = 7) := by
  have key : ∀ (catalog : List AirglowLine) (cams : ℤ → String) (specs : ℤ → Spectrum)
      (plate : ℤ) (specnos : List ℤ), (∀ sp ∈ specnos, Recognized (cams sp)) →
      fit_and_separate_spectra catalog cams specs plate specnos =
        Except.ok ((specnos.take 10).map
          (fun sp => mkRecords 0 plate (cams sp) sp
            (chooseFit catalog (cams sp) (specs sp)))) := by
    intro catalog cams specs plate specnos h
    unfold fit_and_separate_spectra
    have h0 := process_ok catalog cams specs plate 10 specnos h 0
    simpa using h0
  constructor
  · intro catalog cams specs plate specnos h h10
    refine ⟨_, key catalog cams specs plate specnos h, ?_⟩
    rw [List.length_map, List.length_take, h10]
    exact min_self 10
  · have hdup : ((List.replicate 10 (7 : ℤ)).take 10).map
        (fun sp => mkRecords 0 42 ((fun _ => "b1") sp) sp
          (chooseFit [] ((fun _ => "b1") sp) (specB))) =
        List.replicate 10 (mkRecords 0 42 "b1" 7 (chooseFit [] "b1" specB)) := by
      rw [List.take_replicate, List.map_replicate]
      simp
    have hfit : chooseFit [] "b1" specB = linear_model specB 4 (get_vac_lines []).1 := by
      unfold chooseFit
      rw [if_pos (Or.inl rfl)]
    have hlen : (chooseFit [] "b1" specB).wave.length = 1 := by
      rw [hfit]
      rfl
    refine ⟨_, key [] (fun _ => "b1") (fun _ => specB) 42 (List.replicate 10 7)
      (fun sp _ => Or.inl rfl), ?_, ?_, ?_, ?_⟩
    · rw [List.length_map, List.length_take, List.length_replicate]
      exact min_self 10
    · decide
    · rw [hdup,
        List.getD_eq_getElem
          (List.replicate 10 (mkRecords 0 42 "b1" 7 (chooseFit [] "b1" specB))) []
          (by rw [List.length_replicate]; omega),
        List.getElem_replicate]
      exact mkRecords_NUM 0 42 "b1" 7 _ 0 (by rw [hlen]; omega)
    · rw [hdup,
        List.getD_eq_getElem
          (List.replicate 10 (mkRecords 0 42 "b1" 7 (chooseFit [] "b1" specB))) []
          (by rw [List.length_replicate]; omega),
        List.getElem_replicate]
      exact mkRecords_NUM 0 42 "b1" 7 _ 0 (by rw [hlen]; omega)

/-- Witness for C10's universal part at a concrete recognized draw of
size 10. -/
theorem sampling_with_replacement_records_witness :
    ∃ data, fit_and_separate_spectra [] (fun _ => "r1") (fun _ => specB) 5
        [1, 2, 3, 4, 5, 6, 7, 8, 9, 10] = Except.ok data ∧ data.length = 10 :=
  sampling_with_replacement_records.1 [] (fun _ => "r1") (fun _ => specB) 5
    [1, 2, 3, 4, 5, 6, 7, 8, 9, 10] (fun sp _ => Or.inr (Or.inr (Or.inl rfl))) (by decide)
